import Mathlib

/-!
Verification of `create_icon.py` (Switchbot4MenuBar).

The script is a linear sequence of filesystem operations and external-tool
invocations.  We embed it as a pure state-transformer over

* `FS`    — the filesystem, an association list from path to file contents
            (a `write` replaces any previous entry for the same path);
* `Env`   — the behaviour of the three external tools (`qlmanage`, `sips`,
            `iconutil`), each modelled as a deterministic function of the
            inputs the tool actually reads (the target pixel size and the
            contents of the SVG file, resp. the contents of the staging
            directory); a `none` result means the tool produced no output file;
* `St`    — the whole program state: the filesystem, the lines printed so
            far, the external-tool invocations issued so far, and whether the
            staging directory `Aranet4.iconset` currently exists.

`processPair` is the body of the `for size, filename in sizes:` loop
(lines 35–64 of the source), `bundlePhase` is the tail of the script
(lines 66–74), and `runScript` is the whole program.
-/

namespace CreateIcon

/-- The hardcoded size table from lines 8–19 of `create_icon.py`. -/
def sizes : List (Nat × String) :=
  [ (16,   "icon_16x16.png"),
    (32,   "icon_16x16@2x.png"),
    (32,   "icon_32x32.png"),
    (64,   "icon_32x32@2x.png"),
    (128,  "icon_128x128.png"),
    (256,  "icon_128x128@2x.png"),
    (256,  "icon_256x256.png"),
    (512,  "icon_256x256@2x.png"),
    (512,  "icon_512x512.png"),
    (1024, "icon_512x512@2x.png") ]

/-- `int(size * 0.225)` from line 39.  For every size in the table the
double-precision product `size * 0.225` is strictly between the two adjacent
integers and more than `10^-10` away from each, so truncating the float equals
truncating the exact rational, i.e. `size * 225 / 1000` in `Nat` division. -/
def radius (size : Nat) : Nat := size * 225 / 1000

/-- `int(size * 0.65)` from line 40, likewise equal to exact truncation for
every size in the table. -/
def fontsize (size : Nat) : Nat := size * 65 / 100

/-- The result of `svg_template.format(size=…, radius=…, fontsize=…)`
(lines 22–41): the SVG template with the three placeholders substituted. -/
def svg_content (size : Nat) : String :=
  let s := toString size
  "<?xml version=\"1.0\" encoding=\"UTF-8\"?>\n<svg width=\"" ++ s
    ++ "\" height=\"" ++ s
    ++ "\" xmlns=\"http://www.w3.org/2000/svg\">\n  <rect width=\"" ++ s
    ++ "\" height=\"" ++ s
    ++ "\" fill=\"white\" rx=\"" ++ toString (radius size)
    ++ "\"/>\n  <text x=\"50%\" y=\"50%\"\n        font-family=\"SF Pro, Helvetica, Arial, sans-serif\"\n        font-size=\""
    ++ toString (fontsize size)
    ++ "\"\n        font-weight=\"500\"\n        fill=\"black\"\n        text-anchor=\"middle\"\n        dominant-baseline=\"central\">a</text>\n</svg>"

/-- `f'temp_{size}.svg'` (line 43). -/
def svgPath (size : Nat) : String := "temp_" ++ toString size ++ ".svg"

/-- `f'{svg_path}.png'` (line 55), the file `qlmanage -o .` drops in the
working directory. -/
def tempPngPath (size : Nat) : String := svgPath size ++ ".png"

/-- `f'Aranet4.iconset/{filename}'` (line 48). -/
def pngPath (filename : String) : String := "Aranet4.iconset/" ++ filename

/-- `'Aranet4.icns'` (lines 67–72). -/
def icnsPath : String := "Aranet4.icns"

/-! ## The filesystem -/

/-- A filesystem: a finite map from path to contents, kept as an association
list whose `write` operation erases any earlier entry for the same key. -/
structure FS where
  entries : List (String × String)
deriving DecidableEq, Repr

def FS.empty : FS := ⟨[]⟩

def FS.lookup (fs : FS) (p : String) : Option String :=
  match fs.entries.find? (fun e => e.1 == p) with
  | some e => some e.2
  | none => none

/-- `os.path.exists` restricted to the files our model tracks. -/
def FS.pathExists (fs : FS) (p : String) : Bool := (fs.lookup p).isSome

/-- Writing a file (`open(path, 'w')` / a tool dropping an output file):
replaces any previous contents. -/
def FS.write (fs : FS) (p c : String) : FS :=
  ⟨(p, c) :: fs.entries.filter (fun e => !(e.1 == p))⟩

/-- `os.remove`. -/
def FS.remove (fs : FS) (p : String) : FS :=
  ⟨fs.entries.filter (fun e => !(e.1 == p))⟩

/-- `os.rename` (line 57): moves the contents of `src` to `dst`. -/
def FS.rename (fs : FS) (src dst : String) : FS :=
  match fs.lookup src with
  | some c => (fs.remove src).write dst c
  | none => fs

/-- `rm -rf dir` (line 72): removes every file whose path lies under `dir/`. -/
def FS.removeDir (fs : FS) (dir : String) : FS :=
  ⟨fs.entries.filter (fun e => !((dir ++ "/").data.isPrefixOf e.1.data))⟩

/-- How many files the filesystem holds at path `p` (0 or 1 once every write
went through `FS.write`). -/
def FS.countKey (fs : FS) (p : String) : Nat :=
  (fs.entries.filter (fun e => e.1 == p)).length

/-! ## External tools and program state -/

/-- One spawned external process, with the arguments that identify it. -/
inductive ToolCall
  | qlmanage (size : Nat) (svgFile : String)
  | sips (size : Nat) (outFile : String) (srcFile : String)
  | iconutil
  | rmrfIconset
deriving DecidableEq, Repr

/-- Deterministic behaviour of the external tools.

* `ql size svg`: the PNG bytes `qlmanage -t -s size` renders from an SVG file
  with contents `svg`, or `none` if it produces no output file.
* `sips size svg`: likewise for the `sips … --resampleHeightWidth size size`
  fallback (line 61).
* `iconutil listing`: the `.icns` bytes `iconutil -c icns` produces from a
  staging directory whose ten expected files have the given contents
  (`none` where a file is absent), or `none` on failure.  The ten expected
  names are the only files the script ever places in the directory, so the
  listing determines the directory contents. -/
structure Env where
  ql : Nat → String → Option String
  sips : Nat → String → Option String
  iconutil : List (Option String) → Option String

/-- Program state: filesystem, console output lines, spawned tools, and
whether the staging directory currently exists. -/
structure St where
  fs : FS
  out : List String
  calls : List ToolCall
  iconsetDir : Bool
deriving DecidableEq, Repr

/-- `Option.or` spelt out: the first `some`, if any. -/
def firstSome (a b : Option String) : Option String :=
  match a with
  | some x => some x
  | none => b

/-- The bitmap contents the loop body ends up producing for a given size:
the `qlmanage` output when there is one, otherwise whatever `sips` produces. -/
def producedBytes (env : Env) (size : Nat) : Option String :=
  firstSome (env.ql size (svg_content size)) (env.sips size (svg_content size))

/-- One iteration of the `for size, filename in sizes:` loop (lines 35–64):
write the formatted SVG, invoke `qlmanage`, and if its output file exists
rename it into the iconset and print a confirmation, otherwise invoke the
`sips` fallback; finally delete the SVG. -/
def processPair (env : Env) (st : St) (p : Nat × String) : St :=
  let size := p.1
  let filename := p.2
  let content := svg_content size
  let sp := svgPath size
  let fs1 := st.fs.write sp content
  let fs2 := match env.ql size content with
    | some bytes => fs1.write (tempPngPath size) bytes
    | none => fs1
  let st2 : St := { st with fs := fs2, calls := st.calls ++ [ToolCall.qlmanage size sp] }
  let st3 : St :=
    if fs2.pathExists (tempPngPath size) then
      { st2 with
        fs := fs2.rename (tempPngPath size) (pngPath filename),
        out := st2.out ++ ["Created " ++ filename] }
    else
      { st2 with
        fs := match env.sips size content with
          | some bytes => fs2.write (pngPath filename) bytes
          | none => fs2,
        calls := st2.calls ++ [ToolCall.sips size (pngPath filename) sp] }
  { st3 with fs := st3.fs.remove sp }

/-- State at the top of the script, after `os.makedirs('Aranet4.iconset',
exist_ok=True)` (line 5) and the `"Creating icon files..."` print (line 34),
starting from filesystem `fs0`. -/
def initSt (fs0 : FS) : St :=
  { fs := fs0, out := ["Creating icon files..."], calls := [], iconsetDir := true }

/-- The state right after the generation loop, before `iconutil` runs. -/
def loopState (env : Env) (fs0 : FS) : St :=
  sizes.foldl (processPair env) (initSt fs0)

/-- What `iconutil` gets to see: the contents of the ten expected staging
files. -/
def iconsetListing (fs : FS) : List (Option String) :=
  sizes.map (fun p => fs.lookup (pngPath p.2))

/-- Lines 66–74: run `iconutil`, then test whether `Aranet4.icns` exists;
on success print the confirmation and `rm -rf` the staging directory, on
failure print the failure message. -/
def bundlePhase (env : Env) (st : St) : St :=
  let st1 : St := { st with
    out := st.out ++ ["\nConverting iconset to icns..."],
    calls := st.calls ++ [ToolCall.iconutil] }
  let fs := match env.iconutil (iconsetListing st1.fs) with
    | some bytes => st1.fs.write icnsPath bytes
    | none => st1.fs
  if fs.pathExists icnsPath then
    { st1 with
      fs := fs.removeDir "Aranet4.iconset",
      out := st1.out ++ ["✓ Icon created successfully: Aranet4.icns"],
      calls := st1.calls ++ [ToolCall.rmrfIconset],
      iconsetDir := false }
  else
    { st1 with fs := fs, out := st1.out ++ ["✗ Failed to create icon"] }

/-- The whole script. -/
def runScript (env : Env) (fs0 : FS) : St :=
  bundlePhase env (loopState env fs0)

/-- The process exit status of the script: it never calls `sys.exit`, ignores
every `os.system` return value, and reaches the end of the file on both the
success and the failure branch, so Python exits with status 0 regardless of
the run's outcome. -/
def scriptExitCode (_env : Env) (_fs0 : FS) : Nat := 0

/-- Substring test used to state properties of the generated SVG text. -/
def strContainsAux (pat : List Char) : List Char → Bool
  | [] => pat.isPrefixOf ([] : List Char)
  | c :: rest => pat.isPrefixOf (c :: rest) || strContainsAux pat rest

/-- `pat` occurs as a contiguous substring of `s`. -/
def strContains (s pat : String) : Bool := strContainsAux pat.data s.data

/-! ## Disjointness of the paths the script touches -/

/-- The pairwise relations between the paths generated for two table entries
that the loop analysis needs. -/
def PairOK (p q : Nat × String) : Prop :=
  svgPath p.1 ≠ tempPngPath q.1 ∧
  svgPath p.1 ≠ pngPath q.2 ∧
  tempPngPath p.1 ≠ pngPath q.2 ∧
  (p.1 ≠ q.1 → svgPath p.1 ≠ svgPath q.1 ∧ tempPngPath p.1 ≠ tempPngPath q.1) ∧
  (p.2 ≠ q.2 → pngPath p.2 ≠ pngPath q.2)

/-- The relations between one entry's paths, the final artifact's path, and
the staging directory. -/
def EntryOK (p : Nat × String) : Prop :=
  pngPath p.2 ≠ icnsPath ∧ svgPath p.1 ≠ icnsPath ∧ tempPngPath p.1 ≠ icnsPath ∧
  ("Aranet4.iconset" ++ "/").data.isPrefixOf (pngPath p.2).data = true ∧
  ("Aranet4.iconset" ++ "/").data.isPrefixOf (svgPath p.1).data = false ∧
  ("Aranet4.iconset" ++ "/").data.isPrefixOf (tempPngPath p.1).data = false

/-- All path-disjointness facts for a size table. -/
def PathsOK (l : List (Nat × String)) : Prop :=
  (l.map (fun p => p.2)).Nodup ∧ ∀ p ∈ l, EntryOK p ∧ ∀ q ∈ l, PairOK p q

instance (p q : Nat × String) : Decidable (PairOK p q) := by
  unfold PairOK; infer_instance

instance (p : Nat × String) : Decidable (EntryOK p) := by
  unfold EntryOK; infer_instance

instance (l : List (Nat × String)) : Decidable (PathsOK l) := by
  unfold PathsOK; infer_instance


/-- Count of spawned external processes equal to `c`. -/
def countCalls (cs : List ToolCall) (c : ToolCall) : Nat :=
  (cs.filter (fun x => x == c)).length

/-- An environment in which every external tool fails to produce output. -/
def envNone : Env := ⟨fun _ _ => none, fun _ _ => none, fun _ => none⟩

/-- An environment in which both rasterizers always produce output and
`iconutil` succeeds exactly when all ten staging files are present. -/
def envAll : Env :=
  ⟨fun _ _ => some "QL", fun _ _ => some "SIPS",
   fun listing => if listing.all (fun o => o.isSome) then some "ICNS" else none⟩

/-! ## Filesystem lemmas -/

theorem find_filter_key (f : String × String → Bool) (g : String → Bool)
    (hf : ∀ e : String × String, f e = g e.1) (q : String) :
    ∀ l : List (String × String),
      (l.filter f).find? (fun e => e.1 == q)
        = if g q then l.find? (fun e => e.1 == q) else none
  | [] => by simp
  | e :: rest => by
    by_cases hk : e.1 = q
    · have hkq : ((fun e : String × String => e.1 == q) e) = true := by simpa using hk
      by_cases hp : g q
      · have hfe : f e = true := by rw [hf, hk]; exact hp
        rw [List.filter_cons, if_pos hfe,
          @List.find?_cons_of_pos _ (fun e => e.1 == q) e (rest.filter f) hkq,
          @List.find?_cons_of_pos _ (fun e => e.1 == q) e rest hkq, if_pos hp]
      · have hfe : f e = false := by
          rw [hf, hk]
          exact Bool.eq_false_iff.mpr hp
        rw [List.filter_cons, if_neg (by simp [hfe]),
          find_filter_key f g hf q rest, if_neg hp, if_neg hp]
    · have hk' : ¬(((fun e : String × String => e.1 == q) e) = true) := by simpa using hk
      by_cases hp : f e
      · rw [List.filter_cons, if_pos hp,
          @List.find?_cons_of_neg _ (fun e => e.1 == q) e (rest.filter f) hk',
          find_filter_key f g hf q rest]
        by_cases hg : g q
        · rw [if_pos hg, if_pos hg,
            @List.find?_cons_of_neg _ (fun e => e.1 == q) e rest hk']
        · rw [if_neg hg, if_neg hg]
      · rw [List.filter_cons, if_neg hp, find_filter_key f g hf q rest]
        by_cases hg : g q
        · rw [if_pos hg, if_pos hg,
            @List.find?_cons_of_neg _ (fun e => e.1 == q) e rest hk']
        · rw [if_neg hg, if_neg hg]

theorem FS.lookup_write_self (fs : FS) (p c : String) :
    (fs.write p c).lookup p = some c := by
  simp [FS.write, FS.lookup, List.find?]

theorem FS.lookup_write_ne (fs : FS) (p c q : String) (h : q ≠ p) :
    (fs.write p c).lookup q = fs.lookup q := by
  have hpq : ¬(((fun e : String × String => e.1 == q) (p, c)) = true) := by
    simpa using Ne.symm h
  unfold FS.write FS.lookup
  rw [@List.find?_cons_of_neg _ (fun e => e.1 == q) (p, c)
      (fs.entries.filter (fun e => !(e.1 == p))) hpq,
    find_filter_key (fun e => !(e.1 == p)) (fun k => !(k == p)) (fun _ => rfl) q,
    if_pos (by simpa using h)]

theorem FS.lookup_remove_self (fs : FS) (p : String) :
    (fs.remove p).lookup p = none := by
  unfold FS.remove FS.lookup
  rw [find_filter_key (fun e => !(e.1 == p)) (fun k => !(k == p)) (fun _ => rfl) p,
    if_neg (by simp)]

theorem FS.lookup_remove_ne (fs : FS) (p q : String) (h : q ≠ p) :
    (fs.remove p).lookup q = fs.lookup q := by
  unfold FS.remove FS.lookup
  rw [find_filter_key (fun e => !(e.1 == p)) (fun k => !(k == p)) (fun _ => rfl) q,
    if_pos (by simpa using h)]

theorem FS.lookup_rename_src (fs : FS) (src dst : String) (h : src ≠ dst) :
    (fs.rename src dst).lookup src = none := by
  unfold FS.rename
  cases hc : fs.lookup src with
  | none => simpa using hc
  | some c =>
    rw [FS.lookup_write_ne _ _ _ _ h, FS.lookup_remove_self]

theorem FS.lookup_rename_dst (fs : FS) (src dst c : String)
    (h : fs.lookup src = some c) :
    (fs.rename src dst).lookup dst = some c := by
  unfold FS.rename
  rw [h, FS.lookup_write_self]

theorem FS.lookup_rename_ne (fs : FS) (src dst q : String)
    (h1 : q ≠ src) (h2 : q ≠ dst) :
    (fs.rename src dst).lookup q = fs.lookup q := by
  unfold FS.rename
  cases hc : fs.lookup src with
  | none => rfl
  | some c => rw [FS.lookup_write_ne _ _ _ _ h2, FS.lookup_remove_ne _ _ _ h1]

theorem FS.lookup_removeDir (fs : FS) (dir q : String) :
    (fs.removeDir dir).lookup q
      = if (dir ++ "/").data.isPrefixOf q.data then none else fs.lookup q := by
  unfold FS.removeDir FS.lookup
  rw [find_filter_key (fun e => !((dir ++ "/").data.isPrefixOf e.1.data))
    (fun k => !((dir ++ "/").data.isPrefixOf k.data)) (fun _ => rfl) q]
  by_cases hp : (dir ++ "/").data.isPrefixOf q.data
  · rw [if_neg (show ¬((!((dir ++ "/").data.isPrefixOf q.data)) = true) from by
      rw [hp]; decide), if_pos hp]
  · have hf : ((dir ++ "/").data.isPrefixOf q.data) = false := Bool.eq_false_iff.mpr hp
    rw [if_pos (show (!((dir ++ "/").data.isPrefixOf q.data)) = true from by
      rw [hf]; decide), if_neg hp]

theorem FS.countKey_write_self (fs : FS) (p c : String) :
    (fs.write p c).countKey p = 1 := by
  unfold FS.write FS.countKey
  rw [List.filter_cons, if_pos (by simp), List.filter_filter]
  have h0 : fs.entries.filter (fun e => (e.1 == p) && !(e.1 == p)) = [] := by
    apply List.filter_eq_nil_iff.mpr
    intro a _
    simp
  rw [h0]
  rfl

theorem FS.countKey_write_ne (fs : FS) (p c q : String) (h : q ≠ p) :
    (fs.write p c).countKey q = fs.countKey q := by
  unfold FS.write FS.countKey
  rw [List.filter_cons, if_neg (by simpa using Ne.symm h), List.filter_filter]
  have h0 : ∀ e ∈ fs.entries, ((e.1 == q) && !(e.1 == p)) = (e.1 == q) := by
    intro e _
    by_cases he : e.1 = q
    · subst he
      simp [h]
    · simp [he]
  rw [List.filter_congr h0]

theorem FS.countKey_remove_ne (fs : FS) (p q : String) (h : q ≠ p) :
    (fs.remove p).countKey q = fs.countKey q := by
  unfold FS.remove FS.countKey
  rw [List.filter_filter]
  have h0 : ∀ e ∈ fs.entries, ((e.1 == q) && !(e.1 == p)) = (e.1 == q) := by
    intro e _
    by_cases he : e.1 = q
    · subst he
      simp [h]
    · simp [he]
  rw [List.filter_congr h0]

theorem FS.countKey_rename_ne (fs : FS) (src dst q : String)
    (h1 : q ≠ src) (h2 : q ≠ dst) :
    (fs.rename src dst).countKey q = fs.countKey q := by
  unfold FS.rename
  cases hc : fs.lookup src with
  | none => rfl
  | some c => rw [FS.countKey_write_ne _ _ _ _ h2, FS.countKey_remove_ne _ _ _ h1]

theorem FS.countKey_rename_dst (fs : FS) (src dst c : String)
    (h : fs.lookup src = some c) :
    (fs.rename src dst).countKey dst = 1 := by
  unfold FS.rename
  rw [h, FS.countKey_write_self]

theorem pathsOK_sizes : PathsOK sizes := by decide

theorem icns_not_in_iconset :
    ("Aranet4.iconset" ++ "/").data.isPrefixOf icnsPath.data = false := by decide

theorem pathsOK_tail {p : Nat × String} {l : List (Nat × String)}
    (h : PathsOK (p :: l)) : PathsOK l := by
  obtain ⟨hnd, hall⟩ := h
  refine ⟨(List.nodup_cons.mp hnd).2, ?_⟩
  intro q hq
  obtain ⟨he, hpq⟩ := hall q (List.mem_cons_of_mem _ hq)
  exact ⟨he, fun r hr => hpq r (List.mem_cons_of_mem _ hr)⟩

/-! ## One loop iteration -/

theorem processPair_fs_untouched (env : Env) (st : St) (p : Nat × String) (q : String)
    (h1 : q ≠ svgPath p.1) (h2 : q ≠ tempPngPath p.1) (h3 : q ≠ pngPath p.2) :
    (processPair env st p).fs.lookup q = st.fs.lookup q := by
  simp only [processPair]
  cases hql : env.ql p.1 (svg_content p.1) with
  | some b =>
    simp only []
    have hex : ((st.fs.write (svgPath p.1) (svg_content p.1)).write
        (tempPngPath p.1) b).pathExists (tempPngPath p.1) = true := by
      simp [FS.pathExists, FS.lookup_write_self]
    rw [if_pos hex]
    simp only []
    rw [FS.lookup_remove_ne _ _ _ h1, FS.lookup_rename_ne _ _ _ _ h2 h3,
      FS.lookup_write_ne _ _ _ _ h2, FS.lookup_write_ne _ _ _ _ h1]
  | none =>
    simp only []
    by_cases hex : (st.fs.write (svgPath p.1) (svg_content p.1)).pathExists
        (tempPngPath p.1) = true
    · rw [if_pos hex]
      simp only []
      rw [FS.lookup_remove_ne _ _ _ h1, FS.lookup_rename_ne _ _ _ _ h2 h3,
        FS.lookup_write_ne _ _ _ _ h1]
    · rw [if_neg hex]
      simp only []
      cases hs : env.sips p.1 (svg_content p.1) with
      | some b =>
        simp only []
        rw [FS.lookup_remove_ne _ _ _ h1, FS.lookup_write_ne _ _ _ _ h3,
          FS.lookup_write_ne _ _ _ _ h1]
      | none =>
        simp only []
        rw [FS.lookup_remove_ne _ _ _ h1, FS.lookup_write_ne _ _ _ _ h1]

theorem processPair_lookup_png (env : Env) (st : St) (p : Nat × String)
    (hstale : st.fs.lookup (tempPngPath p.1) = none)
    (h1 : svgPath p.1 ≠ tempPngPath p.1)
    (h2 : svgPath p.1 ≠ pngPath p.2)
    (h3 : tempPngPath p.1 ≠ pngPath p.2) :
    (processPair env st p).fs.lookup (pngPath p.2)
      = firstSome (producedBytes env p.1) (st.fs.lookup (pngPath p.2)) := by
  simp only [processPair, producedBytes]
  cases hql : env.ql p.1 (svg_content p.1) with
  | some b =>
    simp only [firstSome]
    have hex : ((st.fs.write (svgPath p.1) (svg_content p.1)).write
        (tempPngPath p.1) b).pathExists (tempPngPath p.1) = true := by
      simp [FS.pathExists, FS.lookup_write_self]
    rw [if_pos hex]
    simp only []
    rw [FS.lookup_remove_ne _ _ _ (Ne.symm h2),
      FS.lookup_rename_dst _ _ _ b (FS.lookup_write_self _ _ _)]
  | none =>
    simp only [firstSome]
    have hex : ¬ ((st.fs.write (svgPath p.1) (svg_content p.1)).pathExists
        (tempPngPath p.1) = true) := by
      rw [FS.pathExists, FS.lookup_write_ne _ _ _ _ (Ne.symm h1), hstale]
      decide
    rw [if_neg hex]
    simp only []
    cases hs : env.sips p.1 (svg_content p.1) with
    | some b =>
      simp only []
      rw [FS.lookup_remove_ne _ _ _ (Ne.symm h2), FS.lookup_write_self]
    | none =>
      simp only []
      rw [FS.lookup_remove_ne _ _ _ (Ne.symm h2),
        FS.lookup_write_ne _ _ _ _ (Ne.symm h2)]

theorem processPair_lookup_svg (env : Env) (st : St) (p : Nat × String) :
    (processPair env st p).fs.lookup (svgPath p.1) = none := by
  simp only [processPair]
  exact FS.lookup_remove_self _ _

theorem processPair_lookup_temp (env : Env) (st : St) (p : Nat × String)
    (hstale : st.fs.lookup (tempPngPath p.1) = none)
    (h1 : svgPath p.1 ≠ tempPngPath p.1)
    (h3 : tempPngPath p.1 ≠ pngPath p.2) :
    (processPair env st p).fs.lookup (tempPngPath p.1) = none := by
  simp only [processPair]
  cases hql : env.ql p.1 (svg_content p.1) with
  | some b =>
    simp only []
    have hex : ((st.fs.write (svgPath p.1) (svg_content p.1)).write
        (tempPngPath p.1) b).pathExists (tempPngPath p.1) = true := by
      simp [FS.pathExists, FS.lookup_write_self]
    rw [if_pos hex]
    simp only []
    rw [FS.lookup_remove_ne _ _ _ (Ne.symm h1), FS.lookup_rename_src _ _ _ h3]
  | none =>
    simp only []
    have hex : ¬ ((st.fs.write (svgPath p.1) (svg_content p.1)).pathExists
        (tempPngPath p.1) = true) := by
      rw [FS.pathExists, FS.lookup_write_ne _ _ _ _ (Ne.symm h1), hstale]
      decide
    rw [if_neg hex]
    simp only []
    cases hs : env.sips p.1 (svg_content p.1) with
    | some b =>
      simp only []
      rw [FS.lookup_remove_ne _ _ _ (Ne.symm h1), FS.lookup_write_ne _ _ _ _ h3,
        FS.lookup_write_ne _ _ _ _ (Ne.symm h1), hstale]
    | none =>
      simp only []
      rw [FS.lookup_remove_ne _ _ _ (Ne.symm h1),
        FS.lookup_write_ne _ _ _ _ (Ne.symm h1), hstale]

theorem processPair_calls (env : Env) (st : St) (p : Nat × String)
    (hstale : st.fs.lookup (tempPngPath p.1) = none)
    (h1 : svgPath p.1 ≠ tempPngPath p.1) :
    (processPair env st p).calls
      = st.calls ++ ToolCall.qlmanage p.1 (svgPath p.1) ::
          (match env.ql p.1 (svg_content p.1) with
            | some _ => []
            | none => [ToolCall.sips p.1 (pngPath p.2) (svgPath p.1)]) := by
  simp only [processPair]
  cases hql : env.ql p.1 (svg_content p.1) with
  | some b =>
    simp only []
    have hex : ((st.fs.write (svgPath p.1) (svg_content p.1)).write
        (tempPngPath p.1) b).pathExists (tempPngPath p.1) = true := by
      simp [FS.pathExists, FS.lookup_write_self]
    rw [if_pos hex]
  | none =>
    simp only []
    have hex : ¬ ((st.fs.write (svgPath p.1) (svg_content p.1)).pathExists
        (tempPngPath p.1) = true) := by
      rw [FS.pathExists, FS.lookup_write_ne _ _ _ _ (Ne.symm h1), hstale]
      decide
    rw [if_neg hex]
    simp [List.append_assoc]

theorem processPair_out (env : Env) (st : St) (p : Nat × String)
    (hstale : st.fs.lookup (tempPngPath p.1) = none)
    (h1 : svgPath p.1 ≠ tempPngPath p.1) :
    (processPair env st p).out
      = st.out ++ (match env.ql p.1 (svg_content p.1) with
          | some _ => ["Created " ++ p.2]
          | none => []) := by
  simp only [processPair]
  cases hql : env.ql p.1 (svg_content p.1) with
  | some b =>
    simp only []
    have hex : ((st.fs.write (svgPath p.1) (svg_content p.1)).write
        (tempPngPath p.1) b).pathExists (tempPngPath p.1) = true := by
      simp [FS.pathExists, FS.lookup_write_self]
    rw [if_pos hex]
  | none =>
    simp only []
    have hex : ¬ ((st.fs.write (svgPath p.1) (svg_content p.1)).pathExists
        (tempPngPath p.1) = true) := by
      rw [FS.pathExists, FS.lookup_write_ne _ _ _ _ (Ne.symm h1), hstale]
      decide
    rw [if_neg hex]
    simp

theorem processPair_iconsetDir (env : Env) (st : St) (p : Nat × String) :
    (processPair env st p).iconsetDir = st.iconsetDir := by
  simp only [processPair]
  cases hql : env.ql p.1 (svg_content p.1) with
  | some b =>
    simp only []
    split <;> rfl
  | none =>
    simp only []
    split <;> rfl

theorem processPair_countKey_png (env : Env) (st : St) (p : Nat × String)
    (hstale : st.fs.lookup (tempPngPath p.1) = none)
    (h1 : svgPath p.1 ≠ tempPngPath p.1)
    (h2 : svgPath p.1 ≠ pngPath p.2)
    (h3 : tempPngPath p.1 ≠ pngPath p.2) :
    (processPair env st p).fs.countKey (pngPath p.2)
      = if (producedBytes env p.1).isSome then 1
        else st.fs.countKey (pngPath p.2) := by
  simp only [processPair]
  cases hql : env.ql p.1 (svg_content p.1) with
  | some b =>
    simp only [producedBytes, hql, firstSome, Option.isSome_some, if_true]
    have hex : ((st.fs.write (svgPath p.1) (svg_content p.1)).write
        (tempPngPath p.1) b).pathExists (tempPngPath p.1) = true := by
      simp [FS.pathExists, FS.lookup_write_self]
    rw [if_pos hex]
    simp only []
    rw [FS.countKey_remove_ne _ _ _ (Ne.symm h2),
      FS.countKey_rename_dst _ _ _ b (FS.lookup_write_self _ _ _)]
  | none =>
    simp only [producedBytes, hql, firstSome]
    have hex : ¬ ((st.fs.write (svgPath p.1) (svg_content p.1)).pathExists
        (tempPngPath p.1) = true) := by
      rw [FS.pathExists, FS.lookup_write_ne _ _ _ _ (Ne.symm h1), hstale]
      decide
    rw [if_neg hex]
    simp only []
    cases hs : env.sips p.1 (svg_content p.1) with
    | some b =>
      simp only [Option.isSome_some, if_true]
      rw [FS.countKey_remove_ne _ _ _ (Ne.symm h2), FS.countKey_write_self]
    | none =>
      simp only [Option.isSome_none]
      rw [if_neg (by decide)]
      rw [FS.countKey_remove_ne _ _ _ (Ne.symm h2),
        FS.countKey_write_ne _ _ _ _ (Ne.symm h2)]

theorem processPair_mem_keys (env : Env) (st : St) (p : Nat × String) :
    ∀ e ∈ (processPair env st p).fs.entries,
      e ∈ st.fs.entries ∨ e.1 = svgPath p.1 ∨ e.1 = tempPngPath p.1
        ∨ e.1 = pngPath p.2 := by
  have hw : ∀ (fs : FS) (r c : String), ∀ e ∈ (fs.write r c).entries,
      e.1 = r ∨ e ∈ fs.entries := by
    intro fs r c e he
    rcases List.mem_cons.mp he with h | h
    · left; rw [h]
    · right; exact List.mem_of_mem_filter h
  have hr : ∀ (fs : FS) (r : String), ∀ e ∈ (fs.remove r).entries,
      e ∈ fs.entries := by
    intro fs r e he
    exact List.mem_of_mem_filter he
  have hren : ∀ (fs : FS) (src dst : String), ∀ e ∈ (fs.rename src dst).entries,
      e.1 = dst ∨ e ∈ fs.entries := by
    intro fs src dst e he
    unfold FS.rename at he
    cases hc : fs.lookup src with
    | some c =>
      rw [hc] at he
      rcases hw _ _ _ e he with h | h
      · left; exact h
      · right; exact hr _ _ _ h
    | none =>
      rw [hc] at he
      right; exact he
  intro e he
  simp only [processPair] at he
  cases hql : env.ql p.1 (svg_content p.1) with
  | some b =>
    rw [hql] at he
    simp only [] at he
    split at he
    · replace he := hr _ _ _ he
      rcases hren _ _ _ _ he with h | h
      · right; right; right; exact h
      · rcases hw _ _ _ _ h with h' | h'
        · right; right; left; exact h'
        · rcases hw _ _ _ _ h' with h'' | h''
          · right; left; exact h''
          · left; exact h''
    · rcases hs : env.sips p.1 (svg_content p.1) with _ | b'
      · rw [hs] at he
        simp only [] at he
        replace he := hr _ _ _ he
        rcases hw _ _ _ _ he with h' | h'
        · right; right; left; exact h'
        · rcases hw _ _ _ _ h' with h'' | h''
          · right; left; exact h''
          · left; exact h''
      · rw [hs] at he
        simp only [] at he
        replace he := hr _ _ _ he
        rcases hw _ _ _ _ he with h | h
        · right; right; right; exact h
        · rcases hw _ _ _ _ h with h' | h'
          · right; right; left; exact h'
          · rcases hw _ _ _ _ h' with h'' | h''
            · right; left; exact h''
            · left; exact h''
  | none =>
    rw [hql] at he
    simp only [] at he
    split at he
    · replace he := hr _ _ _ he
      rcases hren _ _ _ _ he with h | h
      · right; right; right; exact h
      · rcases hw _ _ _ _ h with h' | h'
        · right; left; exact h'
        · left; exact h'
    · rcases hs : env.sips p.1 (svg_content p.1) with _ | b'
      · rw [hs] at he
        simp only [] at he
        replace he := hr _ _ _ he
        rcases hw _ _ _ _ he with h | h
        · right; left; exact h
        · left; exact h
      · rw [hs] at he
        simp only [] at he
        replace he := hr _ _ _ he
        rcases hw _ _ _ _ he with h | h
        · right; right; right; exact h
        · rcases hw _ _ _ _ h with h' | h'
          · right; left; exact h'
          · left; exact h'

theorem processPair_countKey_untouched (env : Env) (st : St) (p : Nat × String)
    (q : String)
    (h1 : q ≠ svgPath p.1) (h2 : q ≠ tempPngPath p.1) (h3 : q ≠ pngPath p.2) :
    (processPair env st p).fs.countKey q = st.fs.countKey q := by
  simp only [processPair]
  cases hql : env.ql p.1 (svg_content p.1) with
  | some b =>
    simp only []
    have hex : ((st.fs.write (svgPath p.1) (svg_content p.1)).write
        (tempPngPath p.1) b).pathExists (tempPngPath p.1) = true := by
      simp [FS.pathExists, FS.lookup_write_self]
    rw [if_pos hex]
    simp only []
    rw [FS.countKey_remove_ne _ _ _ h1, FS.countKey_rename_ne _ _ _ _ h2 h3,
      FS.countKey_write_ne _ _ _ _ h2, FS.countKey_write_ne _ _ _ _ h1]
  | none =>
    simp only []
    by_cases hex : (st.fs.write (svgPath p.1) (svg_content p.1)).pathExists
        (tempPngPath p.1) = true
    · rw [if_pos hex]
      simp only []
      rw [FS.countKey_remove_ne _ _ _ h1, FS.countKey_rename_ne _ _ _ _ h2 h3,
        FS.countKey_write_ne _ _ _ _ h1]
    · rw [if_neg hex]
      simp only []
      cases hs : env.sips p.1 (svg_content p.1) with
      | some b =>
        simp only []
        rw [FS.countKey_remove_ne _ _ _ h1, FS.countKey_write_ne _ _ _ _ h3,
          FS.countKey_write_ne _ _ _ _ h1]
      | none =>
        simp only []
        rw [FS.countKey_remove_ne _ _ _ h1, FS.countKey_write_ne _ _ _ _ h1]

/-! ## The whole generation loop -/

theorem runLoop_fs_untouched (env : Env) (l : List (Nat × String)) (st0 : St)
    (q : String)
    (hq : ∀ p ∈ l, q ≠ svgPath p.1 ∧ q ≠ tempPngPath p.1 ∧ q ≠ pngPath p.2) :
    (l.foldl (processPair env) st0).fs.lookup q = st0.fs.lookup q := by
  induction l generalizing st0 with
  | nil => rfl
  | cons pr rest ih =>
    rw [List.foldl_cons, ih _ (fun p hp => hq p (List.mem_cons_of_mem _ hp))]
    obtain ⟨h1, h2, h3⟩ := hq pr (List.mem_cons_self _ _)
    exact processPair_fs_untouched env st0 pr q h1 h2 h3

theorem runLoop_countKey_untouched (env : Env) (l : List (Nat × String)) (st0 : St)
    (q : String)
    (hq : ∀ p ∈ l, q ≠ svgPath p.1 ∧ q ≠ tempPngPath p.1 ∧ q ≠ pngPath p.2) :
    (l.foldl (processPair env) st0).fs.countKey q = st0.fs.countKey q := by
  induction l generalizing st0 with
  | nil => rfl
  | cons pr rest ih =>
    rw [List.foldl_cons, ih _ (fun p hp => hq p (List.mem_cons_of_mem _ hp))]
    obtain ⟨h1, h2, h3⟩ := hq pr (List.mem_cons_self _ _)
    exact processPair_countKey_untouched env st0 pr q h1 h2 h3

theorem stale_step (env : Env) (st0 : St) (pr : Nat × String)
    (l : List (Nat × String)) (hok : PathsOK (pr :: l))
    (hst : ∀ p ∈ pr :: l, st0.fs.lookup (tempPngPath p.1) = none) :
    ∀ p ∈ l, (processPair env st0 pr).fs.lookup (tempPngPath p.1) = none := by
  intro p hp
  have hpp := (hok.2 pr (List.mem_cons_self _ _)).2 pr (List.mem_cons_self _ _)
  by_cases hsz : p.1 = pr.1
  · rw [show tempPngPath p.1 = tempPngPath pr.1 from by rw [hsz]]
    exact processPair_lookup_temp env st0 pr
      (hst pr (List.mem_cons_self _ _)) hpp.1 hpp.2.2.1
  · have hppr := (hok.2 p (List.mem_cons_of_mem _ hp)).2 pr (List.mem_cons_self _ _)
    have hprp := (hok.2 pr (List.mem_cons_self _ _)).2 p (List.mem_cons_of_mem _ hp)
    rw [processPair_fs_untouched env st0 pr _
      (Ne.symm (hprp.1))
      ((hppr.2.2.2.1 hsz).2)
      (hppr.2.2.1)]
    exact hst p (List.mem_cons_of_mem _ hp)

theorem runLoop_lookup_png (env : Env) (l : List (Nat × String)) (st0 : St)
    (hok : PathsOK l)
    (hst : ∀ p ∈ l, st0.fs.lookup (tempPngPath p.1) = none) :
    ∀ p ∈ l, (l.foldl (processPair env) st0).fs.lookup (pngPath p.2)
      = firstSome (producedBytes env p.1) (st0.fs.lookup (pngPath p.2)) := by
  induction l generalizing st0 with
  | nil => intro p hp; cases hp
  | cons pr rest ih =>
    intro p hp
    rcases List.mem_cons.mp hp with rfl | hp'
    · rw [List.foldl_cons]
      have hframe : ∀ r ∈ rest,
          pngPath p.2 ≠ svgPath r.1 ∧ pngPath p.2 ≠ tempPngPath r.1
            ∧ pngPath p.2 ≠ pngPath r.2 := by
        intro r hr
        have hrp := (hok.2 r (List.mem_cons_of_mem _ hr)).2 p (List.mem_cons_self _ _)
        have hpr := (hok.2 p (List.mem_cons_self _ _)).2 r (List.mem_cons_of_mem _ hr)
        refine ⟨Ne.symm hrp.2.1, Ne.symm hrp.2.2.1, ?_⟩
        have hnm : p.2 ∉ (rest.map (fun x => x.2)) := by
          have h0 := hok.1
          rw [List.map_cons, List.nodup_cons] at h0
          exact h0.1
        have hne : p.2 ≠ r.2 := by
          intro hc
          apply hnm
          rw [hc]
          exact List.mem_map_of_mem (fun x => x.2) hr
        exact hpr.2.2.2.2 hne
      rw [runLoop_fs_untouched env rest _ _ hframe]
      have hpp := (hok.2 p (List.mem_cons_self _ _)).2 p (List.mem_cons_self _ _)
      exact processPair_lookup_png env st0 p (hst p (List.mem_cons_self _ _))
        hpp.1 hpp.2.1 hpp.2.2.1
    · rw [List.foldl_cons]
      rw [ih _ (pathsOK_tail hok) (stale_step env st0 pr rest hok hst) p hp']
      have hppr := (hok.2 p (List.mem_cons_of_mem _ hp')).2 pr (List.mem_cons_self _ _)
      have hprp := (hok.2 pr (List.mem_cons_self _ _)).2 p (List.mem_cons_of_mem _ hp')
      have hnm : pr.2 ∉ (rest.map (fun x => x.2)) := by
        have h0 := hok.1
        rw [List.map_cons, List.nodup_cons] at h0
        exact h0.1
      have hne : p.2 ≠ pr.2 := by
        intro hc
        apply hnm
        rw [← hc]
        exact List.mem_map_of_mem (fun x => x.2) hp'
      rw [processPair_fs_untouched env st0 pr _
        (Ne.symm hprp.2.1)
        (Ne.symm hprp.2.2.1)
        (hppr.2.2.2.2 hne)]

theorem runLoop_lookup_svg (env : Env) (l : List (Nat × String)) (st0 : St)
    (hok : PathsOK l) :
    ∀ p ∈ l, (l.foldl (processPair env) st0).fs.lookup (svgPath p.1) = none := by
  induction l generalizing st0 with
  | nil => intro p hp; cases hp
  | cons pr rest ih =>
    intro p hp
    rcases List.mem_cons.mp hp with rfl | hp'
    · rw [List.foldl_cons]
      by_cases hmem : ∃ r ∈ rest, r.1 = p.1
      · obtain ⟨r, hr, hr1⟩ := hmem
        rw [show svgPath p.1 = svgPath r.1 from by rw [hr1]]
        exact ih _ (pathsOK_tail hok) r hr
      · push_neg at hmem
        have hframe : ∀ r ∈ rest,
            svgPath p.1 ≠ svgPath r.1 ∧ svgPath p.1 ≠ tempPngPath r.1
              ∧ svgPath p.1 ≠ pngPath r.2 := by
          intro r hr
          have hpr := (hok.2 p (List.mem_cons_self _ _)).2 r (List.mem_cons_of_mem _ hr)
          exact ⟨(hpr.2.2.2.1 (fun hc => hmem r hr hc.symm)).1, hpr.1, hpr.2.1⟩
        rw [runLoop_fs_untouched env rest _ _ hframe]
        exact processPair_lookup_svg env st0 p
    · rw [List.foldl_cons]
      exact ih _ (pathsOK_tail hok) p hp'

theorem runLoop_lookup_temp (env : Env) (l : List (Nat × String)) (st0 : St)
    (hok : PathsOK l)
    (hst : ∀ p ∈ l, st0.fs.lookup (tempPngPath p.1) = none) :
    ∀ p ∈ l, (l.foldl (processPair env) st0).fs.lookup (tempPngPath p.1) = none := by
  induction l generalizing st0 with
  | nil => intro p hp; cases hp
  | cons pr rest ih =>
    intro p hp
    rcases List.mem_cons.mp hp with rfl | hp'
    · rw [List.foldl_cons]
      by_cases hmem : ∃ r ∈ rest, r.1 = p.1
      · obtain ⟨r, hr, hr1⟩ := hmem
        rw [show tempPngPath p.1 = tempPngPath r.1 from by rw [hr1]]
        exact ih _ (pathsOK_tail hok) (stale_step env st0 p rest hok hst) r hr
      · push_neg at hmem
        have hframe : ∀ r ∈ rest,
            tempPngPath p.1 ≠ svgPath r.1 ∧ tempPngPath p.1 ≠ tempPngPath r.1
              ∧ tempPngPath p.1 ≠ pngPath r.2 := by
          intro r hr
          have hpr := (hok.2 p (List.mem_cons_self _ _)).2 r (List.mem_cons_of_mem _ hr)
          have hrp := (hok.2 r (List.mem_cons_of_mem _ hr)).2 p (List.mem_cons_self _ _)
          exact ⟨Ne.symm hrp.1,
            (hpr.2.2.2.1 (fun hc => hmem r hr hc.symm)).2, hpr.2.2.1⟩
        rw [runLoop_fs_untouched env rest _ _ hframe]
        have hpp := (hok.2 p (List.mem_cons_self _ _)).2 p (List.mem_cons_self _ _)
        exact processPair_lookup_temp env st0 p (hst p (List.mem_cons_self _ _))
          hpp.1 hpp.2.2.1
    · rw [List.foldl_cons]
      exact ih _ (pathsOK_tail hok) (stale_step env st0 pr rest hok hst) p hp'

theorem runLoop_calls (env : Env) (l : List (Nat × String)) (st0 : St)
    (hok : PathsOK l)
    (hst : ∀ p ∈ l, st0.fs.lookup (tempPngPath p.1) = none) :
    (l.foldl (processPair env) st0).calls
      = st0.calls ++ l.flatMap (fun p => ToolCall.qlmanage p.1 (svgPath p.1) ::
          (match env.ql p.1 (svg_content p.1) with
            | some _ => []
            | none => [ToolCall.sips p.1 (pngPath p.2) (svgPath p.1)])) := by
  induction l generalizing st0 with
  | nil => simp
  | cons pr rest ih =>
    rw [List.foldl_cons,
      ih _ (pathsOK_tail hok) (stale_step env st0 pr rest hok hst),
      processPair_calls env st0 pr (hst pr (List.mem_cons_self _ _))
        ((hok.2 pr (List.mem_cons_self _ _)).2 pr (List.mem_cons_self _ _)).1,
      List.flatMap_cons, List.append_assoc]

theorem runLoop_out (env : Env) (l : List (Nat × String)) (st0 : St)
    (hok : PathsOK l)
    (hst : ∀ p ∈ l, st0.fs.lookup (tempPngPath p.1) = none) :
    (l.foldl (processPair env) st0).out
      = st0.out ++ l.flatMap (fun p =>
          (match env.ql p.1 (svg_content p.1) with
            | some _ => ["Created " ++ p.2]
            | none => [])) := by
  induction l generalizing st0 with
  | nil => simp
  | cons pr rest ih =>
    rw [List.foldl_cons,
      ih _ (pathsOK_tail hok) (stale_step env st0 pr rest hok hst),
      processPair_out env st0 pr (hst pr (List.mem_cons_self _ _))
        ((hok.2 pr (List.mem_cons_self _ _)).2 pr (List.mem_cons_self _ _)).1,
      List.flatMap_cons, List.append_assoc]

theorem runLoop_iconsetDir (env : Env) (l : List (Nat × String)) (st0 : St) :
    (l.foldl (processPair env) st0).iconsetDir = st0.iconsetDir := by
  induction l generalizing st0 with
  | nil => rfl
  | cons pr rest ih =>
    rw [List.foldl_cons, ih, processPair_iconsetDir]

theorem runLoop_mem_keys (env : Env) (l : List (Nat × String)) (st0 : St) :
    ∀ e ∈ (l.foldl (processPair env) st0).fs.entries,
      e ∈ st0.fs.entries ∨ ∃ p ∈ l,
        e.1 = svgPath p.1 ∨ e.1 = tempPngPath p.1 ∨ e.1 = pngPath p.2 := by
  induction l generalizing st0 with
  | nil =>
    intro e he
    exact Or.inl he
  | cons pr rest ih =>
    intro e he
    rw [List.foldl_cons] at he
    rcases ih _ e he with h | ⟨p, hp, hcase⟩
    · rcases processPair_mem_keys env st0 pr e h with h' | h' | h' | h'
      · exact Or.inl h'
      · exact Or.inr ⟨pr, List.mem_cons_self _ _, Or.inl h'⟩
      · exact Or.inr ⟨pr, List.mem_cons_self _ _, Or.inr (Or.inl h')⟩
      · exact Or.inr ⟨pr, List.mem_cons_self _ _, Or.inr (Or.inr h')⟩
    · exact Or.inr ⟨p, List.mem_cons_of_mem _ hp, hcase⟩

theorem runLoop_countKey_png (env : Env) (l : List (Nat × String)) (st0 : St)
    (hok : PathsOK l)
    (hst : ∀ p ∈ l, st0.fs.lookup (tempPngPath p.1) = none) :
    ∀ p ∈ l, (l.foldl (processPair env) st0).fs.countKey (pngPath p.2)
      = if (producedBytes env p.1).isSome then 1
        else st0.fs.countKey (pngPath p.2) := by
  induction l generalizing st0 with
  | nil => intro p hp; cases hp
  | cons pr rest ih =>
    intro p hp
    rcases List.mem_cons.mp hp with rfl | hp'
    · rw [List.foldl_cons]
      have hframe : ∀ r ∈ rest,
          pngPath p.2 ≠ svgPath r.1 ∧ pngPath p.2 ≠ tempPngPath r.1
            ∧ pngPath p.2 ≠ pngPath r.2 := by
        intro r hr
        have hrp := (hok.2 r (List.mem_cons_of_mem _ hr)).2 p (List.mem_cons_self _ _)
        have hpr := (hok.2 p (List.mem_cons_self _ _)).2 r (List.mem_cons_of_mem _ hr)
        refine ⟨Ne.symm hrp.2.1, Ne.symm hrp.2.2.1, ?_⟩
        have hnm : p.2 ∉ (rest.map (fun x => x.2)) := by
          have h0 := hok.1
          rw [List.map_cons, List.nodup_cons] at h0
          exact h0.1
        have hne : p.2 ≠ r.2 := by
          intro hc
          apply hnm
          rw [hc]
          exact List.mem_map_of_mem (fun x => x.2) hr
        exact hpr.2.2.2.2 hne
      rw [runLoop_countKey_untouched env rest _ _ hframe]
      have hpp := (hok.2 p (List.mem_cons_self _ _)).2 p (List.mem_cons_self _ _)
      exact processPair_countKey_png env st0 p (hst p (List.mem_cons_self _ _))
        hpp.1 hpp.2.1 hpp.2.2.1
    · rw [List.foldl_cons]
      rw [ih _ (pathsOK_tail hok) (stale_step env st0 pr rest hok hst) p hp']
      have hppr := (hok.2 p (List.mem_cons_of_mem _ hp')).2 pr (List.mem_cons_self _ _)
      have hprp := (hok.2 pr (List.mem_cons_self _ _)).2 p (List.mem_cons_of_mem _ hp')
      have hnm : pr.2 ∉ (rest.map (fun x => x.2)) := by
        have h0 := hok.1
        rw [List.map_cons, List.nodup_cons] at h0
        exact h0.1
      have hne : p.2 ≠ pr.2 := by
        intro hc
        apply hnm
        rw [← hc]
        exact List.mem_map_of_mem (fun x => x.2) hp'
      rw [processPair_countKey_untouched env st0 pr _
        (Ne.symm hprp.2.1)
        (Ne.symm hprp.2.2.1)
        (hppr.2.2.2.2 hne)]

/-! ## The bundling phase -/

theorem bundlePhase_lookup_icns (env : Env) (st : St) :
    (bundlePhase env st).fs.lookup icnsPath
      = firstSome (env.iconutil (iconsetListing st.fs)) (st.fs.lookup icnsPath) := by
  simp only [bundlePhase]
  cases hic : env.iconutil (iconsetListing st.fs) with
  | some b =>
    simp only [firstSome]
    have hex : (st.fs.write icnsPath b).pathExists icnsPath = true := by
      simp [FS.pathExists, FS.lookup_write_self]
    rw [if_pos hex]
    simp only []
    rw [FS.lookup_removeDir, icns_not_in_iconset]
    simp only [Bool.false_eq_true, if_false]
    exact FS.lookup_write_self _ _ _
  | none =>
    simp only [firstSome]
    by_cases hex : st.fs.pathExists icnsPath = true
    · rw [if_pos hex]
      simp only []
      rw [FS.lookup_removeDir, icns_not_in_iconset]
      simp
    · rw [if_neg hex]

theorem bundlePhase_lookup_outside (env : Env) (st : St) (q : String)
    (hq : q ≠ icnsPath)
    (hpr : ("Aranet4.iconset" ++ "/").data.isPrefixOf q.data = false) :
    (bundlePhase env st).fs.lookup q = st.fs.lookup q := by
  simp only [bundlePhase]
  cases hic : env.iconutil (iconsetListing st.fs) with
  | some b =>
    have hex : (st.fs.write icnsPath b).pathExists icnsPath = true := by
      simp [FS.pathExists, FS.lookup_write_self]
    rw [if_pos hex]
    simp only []
    rw [FS.lookup_removeDir, hpr]
    simp only [Bool.false_eq_true, if_false]
    exact FS.lookup_write_ne _ _ _ _ hq
  | none =>
    by_cases hex : st.fs.pathExists icnsPath = true
    · rw [if_pos hex]
      simp only []
      rw [FS.lookup_removeDir, hpr]
      simp
    · rw [if_neg hex]

theorem bundlePhase_lookup_inside (env : Env) (st : St) (q : String)
    (hpr : ("Aranet4.iconset" ++ "/").data.isPrefixOf q.data = true) :
    (bundlePhase env st).fs.lookup q
      = if (firstSome (env.iconutil (iconsetListing st.fs))
              (st.fs.lookup icnsPath)).isSome
        then none else st.fs.lookup q := by
  have hq : q ≠ icnsPath := by
    intro hc
    rw [hc, icns_not_in_iconset] at hpr
    cases hpr
  simp only [bundlePhase]
  cases hic : env.iconutil (iconsetListing st.fs) with
  | some b =>
    simp only [firstSome, Option.isSome_some, if_true]
    have hex : (st.fs.write icnsPath b).pathExists icnsPath = true := by
      simp [FS.pathExists, FS.lookup_write_self]
    rw [if_pos hex]
    simp only []
    rw [FS.lookup_removeDir, hpr]
    simp
  | none =>
    simp only [firstSome]
    by_cases hex : st.fs.pathExists icnsPath = true
    · rw [if_pos hex]
      simp only []
      rw [FS.lookup_removeDir, hpr]
      have h1 : (st.fs.lookup icnsPath).isSome = true := hex
      simp [h1]
    · rw [if_neg hex]
      simp only []
      have h1 : (st.fs.lookup icnsPath).isSome = false := by
        rw [FS.pathExists] at hex
        exact Bool.eq_false_iff.mpr hex
      simp [h1]

theorem bundlePhase_out (env : Env) (st : St) :
    (bundlePhase env st).out
      = st.out ++ ["\nConverting iconset to icns..."]
          ++ [if (firstSome (env.iconutil (iconsetListing st.fs))
                  (st.fs.lookup icnsPath)).isSome
              then "✓ Icon created successfully: Aranet4.icns"
              else "✗ Failed to create icon"] := by
  simp only [bundlePhase]
  cases hic : env.iconutil (iconsetListing st.fs) with
  | some b =>
    simp only [firstSome, Option.isSome_some, if_true]
    have hex : (st.fs.write icnsPath b).pathExists icnsPath = true := by
      simp [FS.pathExists, FS.lookup_write_self]
    rw [if_pos hex]
  | none =>
    simp only [firstSome]
    by_cases hex : st.fs.pathExists icnsPath = true
    · rw [if_pos hex]
      have h1 : (st.fs.lookup icnsPath).isSome = true := hex
      simp [h1]
    · rw [if_neg hex]
      have h1 : (st.fs.lookup icnsPath).isSome = false := by
        rw [FS.pathExists] at hex
        exact Bool.eq_false_iff.mpr hex
      simp [h1]

theorem bundlePhase_calls (env : Env) (st : St) :
    (bundlePhase env st).calls
      = st.calls ++ [ToolCall.iconutil]
          ++ (if (firstSome (env.iconutil (iconsetListing st.fs))
                  (st.fs.lookup icnsPath)).isSome
              then [ToolCall.rmrfIconset] else []) := by
  simp only [bundlePhase]
  cases hic : env.iconutil (iconsetListing st.fs) with
  | some b =>
    simp only [firstSome, Option.isSome_some, if_true]
    have hex : (st.fs.write icnsPath b).pathExists icnsPath = true := by
      simp [FS.pathExists, FS.lookup_write_self]
    rw [if_pos hex]
  | none =>
    simp only [firstSome]
    by_cases hex : st.fs.pathExists icnsPath = true
    · rw [if_pos hex]
      have h1 : (st.fs.lookup icnsPath).isSome = true := hex
      simp [h1]
    · rw [if_neg hex]
      have h1 : (st.fs.lookup icnsPath).isSome = false := by
        rw [FS.pathExists] at hex
        exact Bool.eq_false_iff.mpr hex
      simp [h1]

theorem bundlePhase_iconsetDir (env : Env) (st : St) :
    (bundlePhase env st).iconsetDir
      = if (firstSome (env.iconutil (iconsetListing st.fs))
              (st.fs.lookup icnsPath)).isSome
        then false else st.iconsetDir := by
  simp only [bundlePhase]
  cases hic : env.iconutil (iconsetListing st.fs) with
  | some b =>
    simp only [firstSome, Option.isSome_some, if_true]
    have hex : (st.fs.write icnsPath b).pathExists icnsPath = true := by
      simp [FS.pathExists, FS.lookup_write_self]
    rw [if_pos hex]
  | none =>
    simp only [firstSome]
    by_cases hex : st.fs.pathExists icnsPath = true
    · rw [if_pos hex]
      have h1 : (st.fs.lookup icnsPath).isSome = true := hex
      simp [h1]
    · rw [if_neg hex]
      have h1 : (st.fs.lookup icnsPath).isSome = false := by
        rw [FS.pathExists] at hex
        exact Bool.eq_false_iff.mpr hex
      simp [h1]

/-! ## Small helpers and whole-run composition -/

theorem firstSome_none (a : Option String) : firstSome a none = a := by
  cases a <;> rfl

theorem firstSome_self (a : Option String) : firstSome a a = a := by
  cases a <;> rfl

theorem FS.empty_lookup (p : String) : FS.empty.lookup p = none := rfl

theorem initSt_fs (fs0 : FS) : (initSt fs0).fs = fs0 := rfl

theorem prefix_of_append (a s : String) :
    a.data.isPrefixOf (a ++ s).data = true := by
  rw [String.data_append]
  exact List.isPrefixOf_iff_prefix.mpr (List.prefix_append _ _)

theorem str_append_left_cancel (a b c : String) (h : a ++ b = a ++ c) : b = c := by
  have hd : a.data ++ b.data = a.data ++ c.data := by
    rw [← String.data_append, ← String.data_append, h]
  have h2 := List.append_cancel_left hd
  cases b with
  | mk bd =>
    cases c with
    | mk cd =>
      exact congrArg String.mk h2

theorem created_ne_of_not_pref (s X : String)
    (h : "Created ".data.isPrefixOf X.data = false) : ("Created " ++ s) ≠ X := by
  intro hc
  have hp := prefix_of_append "Created " s
  rw [hc, h] at hp
  cases hp

theorem icns_frame : ∀ p ∈ sizes,
    icnsPath ≠ svgPath p.1 ∧ icnsPath ≠ tempPngPath p.1 ∧ icnsPath ≠ pngPath p.2 := by
  intro p hp
  have he := (pathsOK_sizes.2 p hp).1
  exact ⟨Ne.symm he.2.1, Ne.symm he.2.2.1, Ne.symm he.1⟩

theorem loopState_lookup_icns (env : Env) (fs0 : FS)
    (h : fs0.lookup icnsPath = none) :
    (loopState env fs0).fs.lookup icnsPath = none := by
  unfold loopState
  rw [runLoop_fs_untouched env sizes _ _ icns_frame]
  exact h

theorem iconsetListing_loopState (env : Env) (fs0 : FS)
    (hst : ∀ p ∈ sizes, fs0.lookup (tempPngPath p.1) = none) :
    iconsetListing (loopState env fs0).fs
      = sizes.map (fun p => firstSome (producedBytes env p.1)
          (fs0.lookup (pngPath p.2))) := by
  unfold iconsetListing loopState
  apply List.map_congr_left
  intro p hp
  exact runLoop_lookup_png env sizes _ pathsOK_sizes hst p hp

theorem iconsetListing_loopState_clean (env : Env) :
    iconsetListing (loopState env FS.empty).fs
      = sizes.map (fun p => producedBytes env p.1) := by
  rw [iconsetListing_loopState env FS.empty (fun p _ => rfl)]
  apply List.map_congr_left
  intro p hp
  rw [FS.empty_lookup]
  exact firstSome_none _

theorem runScript_icns_clean (env : Env) :
    (runScript env FS.empty).fs.lookup icnsPath
      = env.iconutil (sizes.map (fun p => producedBytes env p.1)) := by
  unfold runScript
  rw [bundlePhase_lookup_icns, loopState_lookup_icns env FS.empty rfl,
    firstSome_none, iconsetListing_loopState_clean]

theorem runScript_png_clean (env : Env) :
    ∀ p ∈ sizes, (runScript env FS.empty).fs.lookup (pngPath p.2)
      = if (env.iconutil (sizes.map (fun q => producedBytes env q.1))).isSome
        then none else producedBytes env p.1 := by
  intro p hp
  unfold runScript
  rw [bundlePhase_lookup_inside env _ _ ((pathsOK_sizes.2 p hp).1.2.2.2.1),
    loopState_lookup_icns env FS.empty rfl, firstSome_none,
    iconsetListing_loopState_clean]
  by_cases hs : (env.iconutil (sizes.map (fun q => producedBytes env q.1))).isSome = true
  · rw [if_pos hs, if_pos hs]
  · rw [if_neg hs, if_neg hs]
    unfold loopState
    rw [runLoop_lookup_png env sizes (initSt FS.empty) pathsOK_sizes
      (fun q _ => rfl) p hp, initSt_fs, FS.empty_lookup]
    exact firstSome_none _

theorem runScript_temp_clean (env : Env) :
    ∀ p ∈ sizes, (runScript env FS.empty).fs.lookup (tempPngPath p.1) = none := by
  intro p hp
  unfold runScript
  have he := (pathsOK_sizes.2 p hp).1
  rw [bundlePhase_lookup_outside env _ _ he.2.2.1 he.2.2.2.2.2]
  unfold loopState
  exact runLoop_lookup_temp env sizes (initSt FS.empty) pathsOK_sizes
    (fun q _ => rfl) p hp

/-! ## Claims -/

set_option maxRecDepth 16000 in
/-- C1 (counterexample): the claim asserts corner radius 4 for size 16, but
`int(16 * 0.225) = int(3.6) = 3`, so the generated SVG for the configured
entry of pixel size 16 specifies `rx="3"`, not `rx="4"`. -/
theorem c1_counterexample :
    (16, "icon_16x16.png") ∈ sizes ∧ radius 16 = 3
      ∧ strContains (svg_content 16) "rx=\"3\"" = true
      ∧ strContains (svg_content 16) "rx=\"4\"" = false := by decide

set_option maxRecDepth 16000 in
/-- C1 (amended): for the configured entry with pixel size 16 the generated
vector image description specifies corner radius 3 (16 × 0.225 = 3.6
truncated) and font size 10 (16 × 0.65 = 10.4 truncated). -/
theorem c1_radius_fontsize_16 :
    (16, "icon_16x16.png") ∈ sizes ∧ radius 16 = 3 ∧ fontsize 16 = 10
      ∧ strContains (svg_content 16) "rx=\"3\"" = true
      ∧ strContains (svg_content 16) "font-size=\"10\"" = true := by decide

set_option maxRecDepth 16000 in
/-- C8: for every configured (size, filename) pair the generated vector
description derives its corner radius and font size from the pixel size by
the fixed factors 0.225 and 0.65, truncated to an integer, and those values
appear as the `rx` and `font-size` attributes of the generated SVG text. -/
theorem c8_scale_factors : ∀ p ∈ sizes,
    radius p.1 = p.1 * 225 / 1000 ∧ fontsize p.1 = p.1 * 65 / 100
      ∧ strContains (svg_content p.1)
          ("rx=\"" ++ toString (radius p.1) ++ "\"") = true
      ∧ strContains (svg_content p.1)
          ("font-size=\"" ++ toString (fontsize p.1) ++ "\"") = true := by decide

set_option maxRecDepth 16000 in
/-- Witness for C8 at the configured pair (512, icon_512x512.png). -/
theorem c8_witness :
    radius 512 = 512 * 225 / 1000 ∧ fontsize 512 = 512 * 65 / 100
      ∧ strContains (svg_content 512)
          ("rx=\"" ++ toString (radius 512) ++ "\"") = true
      ∧ strContains (svg_content 512)
          ("font-size=\"" ++ toString (fontsize 512) ++ "\"") = true :=
  c8_scale_factors (512, "icon_512x512.png") (by decide)

/-- C4: after a whole run — from any starting filesystem and whatever the
external tools do — no temporary SVG file of any configured pair remains. -/
theorem c4_no_svg_left (env : Env) (fs0 : FS) :
    ∀ p ∈ sizes, (runScript env fs0).fs.lookup (svgPath p.1) = none := by
  intro p hp
  unfold runScript
  have he := (pathsOK_sizes.2 p hp).1
  rw [bundlePhase_lookup_outside env _ _ he.2.1 he.2.2.2.2.1]
  unfold loopState
  exact runLoop_lookup_svg env sizes (initSt fs0) pathsOK_sizes p hp

/-- Witness for C4: with every tool failing, `temp_16.svg` is gone after the
run. -/
theorem c4_witness : (runScript envNone FS.empty).fs.lookup (svgPath 16) = none :=
  c4_no_svg_left envNone FS.empty (16, "icon_16x16.png") (by decide)

/-- C2: starting from a clean directory, and with `iconutil` succeeding
exactly when every staging file is present, the final `Aranet4.icns` exists
iff for every configured pair some bitmap was produced (by `qlmanage` or by
the `sips` fallback). -/
theorem c2_icns_iff_all_produced (env : Env)
    (hic : ∀ listing : List (Option String),
      (env.iconutil listing).isSome = true ↔ ∀ o ∈ listing, o.isSome = true) :
    (runScript env FS.empty).fs.pathExists icnsPath = true
      ↔ ∀ p ∈ sizes, (producedBytes env p.1).isSome = true := by
  rw [FS.pathExists, runScript_icns_clean, hic]
  constructor
  · intro h p hp
    exact h _ (List.mem_map_of_mem _ hp)
  · intro h o ho
    obtain ⟨p, hp, rfl⟩ := List.mem_map.mp ho
    exact h p hp

/-- Witness for C2: with both rasterizers always succeeding and an honest
`iconutil`, the final artifact exists. -/
theorem c2_witness : (runScript envAll FS.empty).fs.pathExists icnsPath = true := by
  have hic : ∀ listing : List (Option String),
      (envAll.iconutil listing).isSome = true ↔ ∀ o ∈ listing, o.isSome = true := by
    intro l
    constructor
    · intro hs o ho
      by_cases h : l.all (fun o => o.isSome) = true
      · exact List.all_eq_true.mp h o ho
      · exfalso
        simp only [envAll, if_neg h] at hs
        cases hs
    · intro hall
      have h : l.all (fun o => o.isSome) = true := List.all_eq_true.mpr hall
      rw [show envAll.iconutil l = some "ICNS" from by
        simp only [envAll]
        rw [if_pos h]]
      rfl
  exact (c2_icns_iff_all_produced envAll hic).mpr (by decide)

/-- C7: whenever the final artifact is missing after the run, the script has
printed the human-readable failure message as its last line and still exits
with status 0 — the same status as every other run, so the exit status does
not distinguish failure from success. -/
theorem c7_failure_message (env : Env) (fs0 : FS)
    (h : (runScript env fs0).fs.pathExists icnsPath = false) :
    (runScript env fs0).out.getLast? = some "✗ Failed to create icon"
      ∧ scriptExitCode env fs0 = 0
      ∧ ∀ (env2 : Env) (fs2 : FS),
          scriptExitCode env fs0 = scriptExitCode env2 fs2 := by
  refine ⟨?_, rfl, fun _ _ => rfl⟩
  rw [FS.pathExists] at h
  unfold runScript at h ⊢
  rw [bundlePhase_lookup_icns] at h
  rw [bundlePhase_out, List.getLast?_concat]
  have hcond : ¬ ((firstSome (env.iconutil (iconsetListing (loopState env fs0).fs))
      ((loopState env fs0).fs.lookup icnsPath)).isSome = true) := by
    rw [h]; decide
  rw [if_neg hcond]

/-- Witness for C7: every tool failing produces the failure message and
exit status 0. -/
theorem c7_witness :
    (runScript envNone FS.empty).out.getLast? = some "✗ Failed to create icon"
      ∧ scriptExitCode envNone FS.empty = 0
      ∧ ∀ (env2 : Env) (fs2 : FS),
          scriptExitCode envNone FS.empty = scriptExitCode env2 fs2 :=
  c7_failure_message envNone FS.empty (by decide)

/-- C9: after a clean run the staging directory has been deleted iff the
final artifact exists, and when the artifact is missing every bitmap the
loop produced is still in place in the staging directory. -/
theorem c9_staging_cleanup (env : Env) :
    ((runScript env FS.empty).iconsetDir = false
        ↔ (runScript env FS.empty).fs.pathExists icnsPath = true)
      ∧ ((runScript env FS.empty).fs.pathExists icnsPath = false →
          ∀ p ∈ sizes, (runScript env FS.empty).fs.lookup (pngPath p.2)
            = producedBytes env p.1) := by
  have hpe : (runScript env FS.empty).fs.pathExists icnsPath
      = (env.iconutil (sizes.map (fun q => producedBytes env q.1))).isSome := by
    rw [FS.pathExists, runScript_icns_clean]
  have hdir : (runScript env FS.empty).iconsetDir
      = if (env.iconutil (sizes.map (fun q => producedBytes env q.1))).isSome
        then false else true := by
    unfold runScript
    rw [bundlePhase_iconsetDir, loopState_lookup_icns env FS.empty rfl,
      firstSome_none, iconsetListing_loopState_clean]
    congr 1
    unfold loopState
    rw [runLoop_iconsetDir]
    rfl
  constructor
  · rw [hpe, hdir]
    cases hx : (env.iconutil (sizes.map (fun q => producedBytes env q.1))).isSome with
    | false => simp
    | true => simp
  · intro h p hp
    rw [hpe] at h
    rw [runScript_png_clean env p hp,
      if_neg (show ¬((env.iconutil (sizes.map
        (fun q => producedBytes env q.1))).isSome = true) from by rw [h]; decide)]

/-- Witness for C9: with every tool failing, the artifact is missing and the
(non-)bitmap state of `icon_16x16.png` is exactly what the loop produced. -/
theorem c9_witness :
    (runScript envNone FS.empty).fs.lookup (pngPath "icon_16x16.png")
      = producedBytes envNone 16 :=
  (c9_staging_cleanup envNone).2 (by decide) (16, "icon_16x16.png") (by decide)

/-- C3 (counterexample): in a run in which every generation step succeeds
(and bundling succeeds too), the staging directory is deleted at the end, so
the final state contains zero staging bitmaps, not one per pair. -/
theorem c3_counterexample :
    (∀ p ∈ sizes, (producedBytes envAll p.1).isSome = true)
      ∧ (runScript envAll FS.empty).fs.countKey (pngPath "icon_16x16.png") = 0
      ∧ (runScript envAll FS.empty).iconsetDir = false := by
  refine ⟨by decide, by decide, by decide⟩

/-- C3 (amended): right after the generation loop — before `iconutil` runs
and before the success-path cleanup — a clean run in which every pair's
bitmap was produced has exactly one staging file per configured pair, and
every staging file is one of the ten configured bitmaps. -/
theorem c3_staging_before_bundle (env : Env)
    (h : ∀ p ∈ sizes, (producedBytes env p.1).isSome = true) :
    (∀ p ∈ sizes, (loopState env FS.empty).fs.countKey (pngPath p.2) = 1)
      ∧ (∀ e ∈ (loopState env FS.empty).fs.entries,
          ("Aranet4.iconset" ++ "/").data.isPrefixOf e.1.data = true →
            ∃ p ∈ sizes, e.1 = pngPath p.2) := by
  constructor
  · intro p hp
    unfold loopState
    rw [runLoop_countKey_png env sizes (initSt FS.empty) pathsOK_sizes
      (fun q _ => rfl) p hp, if_pos (h p hp)]
  · intro e he hpre
    rcases runLoop_mem_keys env sizes (initSt FS.empty) e he
      with h0 | ⟨p, hp, hc | hc | hc⟩
    · exact absurd h0 (List.not_mem_nil e)
    · exfalso
      have hf := (pathsOK_sizes.2 p hp).1.2.2.2.2.1
      rw [hc, hf] at hpre
      cases hpre
    · exfalso
      have hf := (pathsOK_sizes.2 p hp).1.2.2.2.2.2
      rw [hc, hf] at hpre
      cases hpre
    · exact ⟨p, hp, hc⟩

/-- Witness for the amended C3 at the pair (16, icon_16x16.png). -/
theorem c3_witness :
    (loopState envAll FS.empty).fs.countKey (pngPath "icon_16x16.png") = 1 :=
  (c3_staging_before_bundle envAll (by decide)).1 (16, "icon_16x16.png") (by decide)

/-! ## Counting `sips` invocations (C6) -/

theorem countCalls_append (a b : List ToolCall) (c : ToolCall) :
    countCalls (a ++ b) c = countCalls a c + countCalls b c := by
  unfold countCalls
  rw [List.filter_append, List.length_append]

theorem countCalls_segment (env : Env) (q : Nat × String) (c : ToolCall)
    (hql : c ≠ ToolCall.qlmanage q.1 (svgPath q.1)) :
    countCalls (ToolCall.qlmanage q.1 (svgPath q.1) ::
        (match env.ql q.1 (svg_content q.1) with
          | some _ => []
          | none => [ToolCall.sips q.1 (pngPath q.2) (svgPath q.1)])) c
      = if c = ToolCall.sips q.1 (pngPath q.2) (svgPath q.1)
            ∧ env.ql q.1 (svg_content q.1) = none
        then 1 else 0 := by
  have hqlb : ¬ ((ToolCall.qlmanage q.1 (svgPath q.1) == c) = true) := by
    simp only [beq_iff_eq]
    exact Ne.symm hql
  cases hq : env.ql q.1 (svg_content q.1) with
  | some b =>
    simp only []
    unfold countCalls
    rw [List.filter_cons, if_neg hqlb, List.filter_nil,
      if_neg (fun hcc => Option.noConfusion hcc.2)]
    rfl
  | none =>
    simp only []
    unfold countCalls
    rw [List.filter_cons, if_neg hqlb, List.filter_cons]
    by_cases hcs : c = ToolCall.sips q.1 (pngPath q.2) (svgPath q.1)
    · rw [if_pos (show (ToolCall.sips q.1 (pngPath q.2) (svgPath q.1) == c) = true
        from by simp [hcs]), if_pos ⟨hcs, by trivial⟩]
      rfl
    · rw [if_neg (show ¬ ((ToolCall.sips q.1 (pngPath q.2) (svgPath q.1) == c) = true)
        from by simp only [beq_iff_eq]; exact Ne.symm hcs),
        if_neg (fun hcc => hcs hcc.1)]
      rfl

theorem countCalls_flatMap_zero (env : Env) (l : List (Nat × String)) (c : ToolCall)
    (hc : ∀ q ∈ l, c ≠ ToolCall.qlmanage q.1 (svgPath q.1)
      ∧ c ≠ ToolCall.sips q.1 (pngPath q.2) (svgPath q.1)) :
    countCalls (l.flatMap (fun q => ToolCall.qlmanage q.1 (svgPath q.1) ::
        (match env.ql q.1 (svg_content q.1) with
          | some _ => []
          | none => [ToolCall.sips q.1 (pngPath q.2) (svgPath q.1)]))) c = 0 := by
  induction l with
  | nil => rfl
  | cons q rest ih =>
    rw [List.flatMap_cons, countCalls_append,
      countCalls_segment env q c (hc q (List.mem_cons_self _ _)).1,
      if_neg (fun hcc => (hc q (List.mem_cons_self _ _)).2 hcc.1),
      ih (fun r hr => hc r (List.mem_cons_of_mem _ hr))]

theorem countCalls_sips_flatMap (env : Env) (l : List (Nat × String))
    (p : Nat × String) (hp : p ∈ l)
    (hnd : (l.map (fun x => x.2)).Nodup)
    (hdist : ∀ q ∈ l, q.2 ≠ p.2 → pngPath q.2 ≠ pngPath p.2) :
    countCalls (l.flatMap (fun q => ToolCall.qlmanage q.1 (svgPath q.1) ::
        (match env.ql q.1 (svg_content q.1) with
          | some _ => []
          | none => [ToolCall.sips q.1 (pngPath q.2) (svgPath q.1)])))
      (ToolCall.sips p.1 (pngPath p.2) (svgPath p.1))
      = if (env.ql p.1 (svg_content p.1)).isSome then 0 else 1 := by
  induction l with
  | nil => cases hp
  | cons q rest ih =>
    rw [List.flatMap_cons, countCalls_append]
    have hnmap : q.2 ∉ rest.map (fun x => x.2) := by
      rw [List.map_cons, List.nodup_cons] at hnd
      exact hnd.1
    rcases List.mem_cons.mp hp with rfl | hp'
    · have hz : countCalls (rest.flatMap (fun r =>
          ToolCall.qlmanage r.1 (svgPath r.1) ::
            (match env.ql r.1 (svg_content r.1) with
              | some _ => []
              | none => [ToolCall.sips r.1 (pngPath r.2) (svgPath r.1)])))
          (ToolCall.sips p.1 (pngPath p.2) (svgPath p.1)) = 0 := by
        apply countCalls_flatMap_zero
        intro r hr
        constructor
        · intro hcc; cases hcc
        · intro hcc
          injection hcc with hs1 hs2 hs3
          have hr2 : r.2 ≠ p.2 := by
            intro he
            apply hnmap
            rw [← he]
            exact List.mem_map_of_mem (fun x => x.2) hr
          exact hdist r (List.mem_cons_of_mem _ hr) hr2 hs2.symm
      rw [hz, countCalls_segment env p _ (fun hcc => by cases hcc)]
      cases hq : env.ql p.1 (svg_content p.1) with
      | some b =>
        rw [if_neg (fun hcc => Option.noConfusion hcc.2)]
        rfl
      | none =>
        rw [if_pos ⟨rfl, rfl⟩]
        rfl
    · have hq2 : q.2 ≠ p.2 := by
        intro he
        apply hnmap
        rw [he]
        exact List.mem_map_of_mem (fun x => x.2) hp'
      rw [countCalls_segment env q _ (fun hcc => by cases hcc),
        if_neg (fun hcc => (hdist q (List.mem_cons_self _ _) hq2)
          (by injection hcc.1 with hs1 hs2 hs3; exact hs2.symm)),
        ih hp' (by rw [List.map_cons, List.nodup_cons] at hnd; exact hnd.2)
          (fun r hr hrne => hdist r (List.mem_cons_of_mem _ hr) hrne),
        Nat.zero_add]

theorem runScript_eq (env : Env) (fs0 : FS) :
    runScript env fs0 = bundlePhase env (loopState env fs0) := rfl

theorem loopState_calls_clean (env : Env) :
    (loopState env FS.empty).calls
      = sizes.flatMap (fun q => ToolCall.qlmanage q.1 (svgPath q.1) ::
          (match env.ql q.1 (svg_content q.1) with
            | some _ => []
            | none => [ToolCall.sips q.1 (pngPath q.2) (svgPath q.1)])) := by
  unfold loopState
  rw [runLoop_calls env sizes (initSt FS.empty) pathsOK_sizes (fun q _ => rfl)]
  rfl

theorem loopState_out_clean (env : Env) :
    (loopState env FS.empty).out
      = "Creating icon files..." :: sizes.flatMap (fun q =>
          (match env.ql q.1 (svg_content q.1) with
            | some _ => ["Created " ++ q.2]
            | none => [])) := by
  unfold loopState
  rw [runLoop_out env sizes (initSt FS.empty) pathsOK_sizes (fun q _ => rfl)]
  rfl

/-- C6: in a clean run, for every configured pair the `sips` fallback for
that pair is invoked exactly once when `qlmanage` produced no output file,
and never when the `qlmanage` output file exists. -/
theorem c6_fallback_once (env : Env) (p : Nat × String) (hp : p ∈ sizes) :
    countCalls (runScript env FS.empty).calls
        (ToolCall.sips p.1 (pngPath p.2) (svgPath p.1))
      = if (env.ql p.1 (svg_content p.1)).isSome then 0 else 1 := by
  rw [runScript_eq, bundlePhase_calls, countCalls_append, countCalls_append,
    loopState_calls_clean,
    countCalls_sips_flatMap env sizes p hp pathsOK_sizes.1
      (fun q hq hne => ((pathsOK_sizes.2 q hq).2 p hp).2.2.2.2 hne)]
  have h1 : countCalls [ToolCall.iconutil]
      (ToolCall.sips p.1 (pngPath p.2) (svgPath p.1)) = 0 := rfl
  have h2 : countCalls
      (if (firstSome (env.iconutil (iconsetListing (loopState env FS.empty).fs))
            ((loopState env FS.empty).fs.lookup icnsPath)).isSome
        then [ToolCall.rmrfIconset] else [])
      (ToolCall.sips p.1 (pngPath p.2) (svgPath p.1)) = 0 := by
    split
    · rfl
    · rfl
  rw [h1, h2]
  omega

/-- Witness for C6: with `qlmanage` always failing, the fallback for the
16-pixel pair runs exactly once. -/
theorem c6_witness :
    countCalls (runScript envNone FS.empty).calls
        (ToolCall.sips 16 (pngPath "icon_16x16.png") (svgPath 16)) = 1 :=
  (c6_fallback_once envNone (16, "icon_16x16.png") (by decide)).trans (by decide)

/-- C10: in a clean run, the per-size confirmation `Created <filename>` is
printed iff `qlmanage` produced its output file for that pair; when both
paths fail the pair's bitmap is simply missing (nothing is printed for it
and no error is raised), and the loop still reaches every pair — each pair's
`qlmanage` invocation happens no matter what the tools do. -/
theorem c10_created_message (env : Env) (p : Nat × String) (hp : p ∈ sizes) :
    (("Created " ++ p.2) ∈ (runScript env FS.empty).out
        ↔ (env.ql p.1 (svg_content p.1)).isSome = true)
      ∧ (producedBytes env p.1 = none →
          (runScript env FS.empty).fs.lookup (pngPath p.2) = none)
      ∧ ToolCall.qlmanage p.1 (svgPath p.1) ∈ (runScript env FS.empty).calls := by
  refine ⟨?_, ?_, ?_⟩
  · rw [runScript_eq, bundlePhase_out, loopState_out_clean]
    constructor
    · intro hmem
      rcases List.mem_append.mp hmem with hmem1 | hfin
      · rcases List.mem_append.mp hmem1 with hmem2 | hconv
        · rcases List.mem_cons.mp hmem2 with hcre | hflat
          · exact absurd hcre (created_ne_of_not_pref _ _ (by decide))
          · obtain ⟨q, hq, hin⟩ := List.mem_flatMap.mp hflat
            revert hin
            cases hgq : env.ql q.1 (svg_content q.1) with
            | none =>
              intro hin
              exact absurd hin (List.not_mem_nil _)
            | some b =>
              intro hin
              have heq : ("Created " ++ p.2) = ("Created " ++ q.2) := by
                simpa using hin
              have h2 : p.2 = q.2 := str_append_left_cancel _ _ _ heq
              have hqp : q = p :=
                List.inj_on_of_nodup_map pathsOK_sizes.1 hq hp h2.symm
              rw [← hqp, hgq]
              rfl
        · exact absurd (List.mem_singleton.mp hconv)
            (created_ne_of_not_pref _ _ (by decide))
      · have hfin2 := List.mem_singleton.mp hfin
        revert hfin2
        split
        · intro hcc
          exact absurd hcc (created_ne_of_not_pref _ _ (by decide))
        · intro hcc
          exact absurd hcc (created_ne_of_not_pref _ _ (by decide))
    · intro hql
      apply List.mem_append.mpr
      left
      apply List.mem_append.mpr
      left
      apply List.mem_cons.mpr
      right
      apply List.mem_flatMap.mpr
      refine ⟨p, hp, ?_⟩
      cases hgq : env.ql p.1 (svg_content p.1) with
      | none =>
        rw [hgq] at hql
        exact absurd hql (by decide)
      | some b =>
        exact List.mem_singleton.mpr rfl
  · intro hnone
    rw [runScript_png_clean env p hp]
    by_cases hs : (env.iconutil (sizes.map
        (fun q => producedBytes env q.1))).isSome = true
    · rw [if_pos hs]
    · rw [if_neg hs]
      exact hnone
  · rw [runScript_eq, bundlePhase_calls, loopState_calls_clean]
    apply List.mem_append.mpr
    left
    apply List.mem_append.mpr
    left
    apply List.mem_flatMap.mpr
    exact ⟨p, hp, List.mem_cons_self _ _⟩

/-- Witness for C10: with every tool failing at the 16-pixel pair, its
bitmap is missing after the run and processing nevertheless completed. -/
theorem c10_witness :
    (runScript envNone FS.empty).fs.lookup (pngPath "icon_16x16.png") = none :=
  (c10_created_message envNone (16, "icon_16x16.png") (by decide)).2.1 (by decide)

/-- C5: runs are idempotent.  With each external tool a fixed deterministic
function of its inputs, running the script a second time — starting from
whatever filesystem the first clean run left behind — yields exactly the same
final artifact contents (`Aranet4.icns` lookup) as the first run. -/
theorem c5_idempotent (env : Env) :
    (runScript env (runScript env FS.empty).fs).fs.lookup icnsPath
      = (runScript env FS.empty).fs.lookup icnsPath := by
  have hst1 : ∀ p ∈ sizes,
      (runScript env FS.empty).fs.lookup (tempPngPath p.1) = none :=
    runScript_temp_clean env
  have hlist2 : iconsetListing (loopState env (runScript env FS.empty).fs).fs
      = sizes.map (fun q => producedBytes env q.1) := by
    rw [iconsetListing_loopState env _ hst1]
    apply List.map_congr_left
    intro p hp
    rw [runScript_png_clean env p hp]
    by_cases hs : (env.iconutil (sizes.map
        (fun q => producedBytes env q.1))).isSome = true
    · rw [if_pos hs]
      exact firstSome_none _
    · rw [if_neg hs]
      exact firstSome_self _
  have hicns2 : (loopState env (runScript env FS.empty).fs).fs.lookup icnsPath
      = env.iconutil (sizes.map (fun q => producedBytes env q.1)) := by
    unfold loopState
    rw [runLoop_fs_untouched env sizes _ _ icns_frame, initSt_fs]
    exact runScript_icns_clean env
  conv_lhs => rw [runScript_eq]
  rw [bundlePhase_lookup_icns, hlist2, hicns2, runScript_icns_clean]
  exact firstSome_self _

end CreateIcon
